import Mathlib

/-!
Shallow embedding of the experimental butterfly prototype
(src/experimental/butterfly.cpp) of the fmmtl repository, together with
theorems settling the specification claims about it.

The program builds two spatial trees, sizes two box bindings (a multipole
table over source boxes and a local table over target boxes), runs a
level-synchronized sweep whose operator bodies are comment placeholders,
and finally compares the (still zero) result vector against a direct
evaluation, reporting three relative-error metrics.
-/

noncomputable section

/-- Inner product of the one-dimensional points used by the kernel
(source_type and target_type are both Vec<1,double>). -/
def inner_prod (t s : Fin 1 → ℝ) : ℝ := ∑ i, t i * s i

/-- boost::math::cos_pi: cos_pi x = cos (π · x). -/
def cos_pi (x : ℝ) : ℝ := Real.cos (Real.pi * x)

/-- boost::math::sin_pi: sin_pi x = sin (π · x). -/
def sin_pi (x : ℝ) : ℝ := Real.sin (Real.pi * x)

namespace FourierKernel

/-- FourierKernel::operator(): with r = 2·inner_prod(t,s), the kernel value is
the complex number (cos_pi r, sin_pi r). -/
def value (t s : Fin 1 → ℝ) : ℂ :=
  ⟨cos_pi (2 * inner_prod t s), sin_pi (2 * inner_prod t s)⟩

/-- FourierKernel::phase: 2·π·inner_prod(t,s). -/
def phase (t s : Fin 1 → ℝ) : ℝ := 2 * Real.pi * inner_prod t s

/-- FourierKernel::ampl: constantly 1. -/
def ampl (t s : Fin 1 → ℝ) : ℝ := 1

end FourierKernel

/-- Formula following the spec's words (for comparison with the code's kernel):
amplitude(t,s) · (cos(2π·phase(t,s)) + i·sin(2π·phase(t,s))). -/
def specKernelFactorization (t s : Fin 1 → ℝ) : ℂ :=
  (FourierKernel.ampl t s : ℂ) *
    (Real.cos (2 * Real.pi * FourierKernel.phase t s) +
     Real.sin (2 * Real.pi * FourierKernel.phase t s) * Complex.I)

/-- Modelled from the spec: the Tree collaborator (fmmtl/tree/NDTree.hpp is not
under src/). Per spec section 4.1 it exposes a level count, the sequence of
boxes at each level in a deterministic stable order, and a per-box leaf flag;
a box is identified here by its level and its index in that order, and
boxCount lvl is the number of boxes at level lvl. -/
structure BoxTree where
  levels : ℕ
  boxCount : ℕ → ℕ
  isLeaf : ℕ → ℕ → Bool

/-- max_L = min(source_tree.levels(), target_tree.levels()) - 1
(butterfly.cpp line 128; both level counts are at least 1, so the C++ int
arithmetic coincides with the ℕ arithmetic used here). -/
def max_L (sT tT : BoxTree) : ℕ := min sT.levels tT.levels - 1

/-- L_split = max_L / 2 (butterfly.cpp line 139, C++ integer division of
nonnegative ints, which is ℕ division). -/
def L_split (sT tT : BoxTree) : ℕ := max_L sT tT / 2

/-- The seven transfer operators named in the traversal's branches. -/
inductive Op
  | S2M | M2M | S2L | M2L | L2T | L2L | M2T
  deriving DecidableEq

/-- Source-side operators: S2M, M2M, S2L. -/
def isSourceOp : Op → Bool
  | Op.S2M | Op.M2M | Op.S2L => true
  | _ => false

/-- Target-side operators: L2T, L2L, M2T. -/
def isTargetOp : Op → Bool
  | Op.L2T | Op.L2L | Op.M2T => true
  | _ => false

/-- A record that one operator branch was reached for an (L, sbox, tbox)
triple of the sweep, with boxes given by their index at their level. -/
structure Step where
  L : ℕ
  sIdx : ℕ
  tIdx : ℕ
  op : Op
  deriving DecidableEq

/-- The operator branches of butterfly.cpp lines 155-173 for one
(L, sbox, tbox) triple, in program order: the source-side if/else chain
(S2M if L == 0 or sbox is a leaf, else M2M if L < L_split, else S2L), the
crossover test (M2L if L == L_split), and the target-side if/else chain
(L2T if L == max_L or tbox is a leaf, else L2L if L > L_split, else M2T). -/
def tripleOps (mL Ls L : ℕ) (sLeaf tLeaf : Bool) : List Op :=
  (if L = 0 ∨ sLeaf = true then [Op.S2M]
   else if L < Ls then [Op.M2M]
   else [Op.S2L]) ++
  (if L = Ls then [Op.M2L] else []) ++
  (if L = mL ∨ tLeaf = true then [Op.L2T]
   else if Ls < L then [Op.L2L]
   else [Op.M2T])

/-- The mutable state of main during the traversal: the result vector
(std::vector<result_type> result(M), value-initialized) and the two box
bindings. A binding maps a box (level, index) to its slot, itself a
std::vector of coefficient vectors; a default-constructed coefficient vector
is empty. The source binding is named multipole in the code; the target
binding is named local in the code (a Lean keyword, hence localB here). -/
structure SweepState where
  result : List ℂ
  multipole : ℕ → ℕ → List (List ℂ)
  localB : ℕ → ℕ → List (List ℂ)

/-- std::vector::resize n: keep the first n entries and default-construct the
rest (each default inner coefficient vector is empty). -/
def resizeList (v : List (List ℂ)) (n : ℕ) : List (List ℂ) :=
  v.take n ++ List.replicate (n - v.length) []

/-- One iteration of the initialization loop (butterfly.cpp lines 131-136) at
level index L: resize the multipole slot of every source box at level
max_L - L to the number of target boxes at level L, and the local slot of
every target box at level L to the number of source boxes at level max_L - L.
Modelled from the spec where it leans on headers not under src/:
make_box_binding (fmmtl/tree/TreeData.hpp) yields a default-constructed slot
per box, and tree.boxes(L) passed to resize is the box count at level L. -/
def initStep (sT tT : BoxTree) (mL : ℕ)
    (p : (ℕ → ℕ → List (List ℂ)) × (ℕ → ℕ → List (List ℂ))) (L : ℕ) :
    (ℕ → ℕ → List (List ℂ)) × (ℕ → ℕ → List (List ℂ)) :=
  (fun lvl i =>
     if lvl = mL - L ∧ i < sT.boxCount (mL - L) then
       resizeList (p.1 lvl i) (tT.boxCount L)
     else p.1 lvl i,
   fun lvl i =>
     if lvl = L ∧ i < tT.boxCount L then
       resizeList (p.2 lvl i) (sT.boxCount (mL - L))
     else p.2 lvl i)

/-- The initialization loop over L = 0..max_L, starting from the empty
bindings created by make_box_binding. -/
def initLoop (sT tT : BoxTree) (mL : ℕ) :
    (ℕ → ℕ → List (List ℂ)) × (ℕ → ℕ → List (List ℂ)) :=
  (List.range (mL + 1)).foldl (initStep sT tT mL) (fun _ _ => [], fun _ _ => [])

/-- The state right before the level sweep: result(M) value-initialized to
zero and the two bindings sized by the initialization loop. -/
def initState (sT tT : BoxTree) (M : ℕ) : SweepState :=
  { result := List.replicate M 0
    multipole := (initLoop sT tT (max_L sT tT)).1
    localB := (initLoop sT tT (max_L sT tT)).2 }

/-- The innermost loop body acting on the state: every operator branch in the
prototype is a comment placeholder, so each branch returns the state
unchanged. The branch structure mirrors butterfly.cpp lines 155-173. -/
def tripleEffect (mL Ls L : ℕ) (sLeaf tLeaf : Bool) (st : SweepState) : SweepState :=
  let st1 := if L = 0 ∨ sLeaf = true then st else if L < Ls then st else st
  let st2 := if L = Ls then st1 else st1
  if L = mL ∨ tLeaf = true then st2 else if Ls < L then st2 else st2

/-- The level sweep (butterfly.cpp lines 143-176): for L = 0 while L < L_split,
for every source box at level max_L - L, for every target box at level L, run
the operator branches of that triple. Returns the trace of operator branches
reached (instrumentation recording the order of visits) together with the
final state. -/
def sweep (sT tT : BoxTree) (st0 : SweepState) : List Step × SweepState :=
  (List.range (L_split sT tT)).foldl (fun accL L =>
    (List.range (sT.boxCount (max_L sT tT - L))).foldl (fun accS sIdx =>
      (List.range (tT.boxCount L)).foldl (fun accT tIdx =>
        (accT.1 ++
           (tripleOps (max_L sT tT) (L_split sT tT) L
              (sT.isLeaf (max_L sT tT - L) sIdx) (tT.isLeaf L tIdx)).map
             (fun op => ⟨L, sIdx, tIdx, op⟩),
         tripleEffect (max_L sT tT) (L_split sT tT) L
           (sT.isLeaf (max_L sT tT - L) sIdx) (tT.isLeaf L tIdx) accT.2))
        accS) accL) ([], st0)

/-- The abort cause of assert(L_split > 0) at butterfly.cpp line 140. -/
inductive ConfigurationError
  | lSplitNotPositive
  deriving DecidableEq

/-- The run from binding initialization to the end of the sweep: the
initialization loop runs, then assert(L_split > 0) (butterfly.cpp line 140)
aborts when L_split ≤ 0, and only otherwise does the level sweep execute. -/
def butterflyRun (sT tT : BoxTree) (M : ℕ) :
    Except ConfigurationError (List Step × SweepState) :=
  if L_split sT tT > 0 then Except.ok (sweep sT tT (initState sT tT M))
  else Except.error ConfigurationError.lSplitNotPositive

/-- norm_2 of a complex number: its modulus (fmmtl/numeric/norm.hpp is not
under src/; per the spec's error formulas this is the 2-norm ‖·‖). -/
def norm_2 (z : ℂ) : ℝ := Complex.abs z

/-- norm_2_sq of a complex number: the squared modulus. -/
def norm_2_sq (z : ℂ) : ℝ := Complex.normSq z

/-- Model of an IEEE double used by the error accumulators: some x is a finite
value, none stands for a non-finite value (infinity or NaN), which division by
zero produces and which propagates through addition. -/
def oadd : Option ℝ → Option ℝ → Option ℝ
  | some a, some b => some (a + b)
  | _, _ => none

/-- max on the double model; a non-finite operand poisons the result. -/
def omax : Option ℝ → Option ℝ → Option ℝ
  | some a, some b => some (max a b)
  | _, _ => none

/-- Division on the double model: division by zero is non-finite. -/
def odiv : Option ℝ → Option ℝ → Option ℝ
  | some a, some b => if b = 0 then none else some (a / b)
  | _, _ => none

/-- sqrt on the double model. -/
def osqrt : Option ℝ → Option ℝ
  | some a => some (Real.sqrt a)
  | none => none

/-- The running accumulators of the error-analysis loop
(butterfly.cpp lines 188-191). -/
structure ErrorAccum where
  tot_error_sq : ℝ
  tot_norm_sq : ℝ
  tot_ind_rel_err : Option ℝ
  max_ind_rel_err : Option ℝ

/-- One iteration of the error-analysis loop (butterfly.cpp lines 192-204) on
the pair p = (result[k], exact[k]): rel_error = norm_2(exact[k] - result[k]) /
norm_2(exact[k]) feeds the sum and the running maximum, and the squared norms
feed the aggregate numerator and denominator. -/
def errorStep (acc : ErrorAccum) (p : ℂ × ℂ) : ErrorAccum :=
  let rel_error := odiv (some (norm_2 (p.2 - p.1))) (some (norm_2 p.2))
  { tot_error_sq := acc.tot_error_sq + norm_2_sq (p.2 - p.1)
    tot_norm_sq := acc.tot_norm_sq + norm_2_sq p.2
    tot_ind_rel_err := oadd acc.tot_ind_rel_err rel_error
    max_ind_rel_err := omax acc.max_ind_rel_err rel_error }

/-- The three reported metrics (butterfly.cpp lines 188-211): the vector
(aggregate) relative error sqrt(tot_error_sq / tot_norm_sq), the average
relative error tot_ind_rel_err / result.size(), and the maximum relative
error. -/
def errorMetrics (result exact : List ℂ) : Option ℝ × Option ℝ × Option ℝ :=
  let acc := (result.zip exact).foldl errorStep ⟨0, 0, some 0, some 0⟩
  (osqrt (odiv (some acc.tot_error_sq) (some acc.tot_norm_sq)),
   odiv acc.tot_ind_rel_err (some ((result.length : ℕ) : ℝ)),
   acc.max_ind_rel_err)

/-- A tree shape with two levels and one box per level: max_L pairing with
itself gives max_L = 1, L_split = 0. -/
def tree2 : BoxTree := ⟨2, fun _ => 1, fun _ _ => false⟩

/-- A tree shape with three levels and one box per level, no box flagged as a
leaf: pairing with itself gives max_L = 2, L_split = 1. -/
def tree3 : BoxTree := ⟨3, fun _ => 1, fun _ _ => false⟩

/-- A tree shape with four levels and one box per level. -/
def tree4 : BoxTree := ⟨4, fun _ => 1, fun _ _ => false⟩

/-- The point with single coordinate 1/2, used to refute the spec's kernel
factorization formula. -/
def halfPoint : Fin 1 → ℝ := fun _ => 1 / 2

end

/-! Theorems. -/

theorem tripleEffect_id (mL Ls L : ℕ) (sLeaf tLeaf : Bool) (st : SweepState) :
    tripleEffect mL Ls L sLeaf tLeaf st = st := by
  simp [tripleEffect]

theorem foldl_preserves_snd {α β γ : Type _} (f : γ × β → α → γ × β)
    (h : ∀ a x, (f a x).2 = a.2) :
    ∀ (l : List α) (acc : γ × β), (l.foldl f acc).2 = acc.2
  | [], _ => rfl
  | x :: l, acc => by
    rw [List.foldl_cons, foldl_preserves_snd f h l, h]

/-- C1 (code_bug evaluation): with two 3-level trees max_L = 2, yet the level
sweep (loop condition L < L_split at butterfly.cpp line 143) only reaches
L = 0: its trace holds the two steps of the single (0, sbox0, tbox0) triple,
so levels 1 = L_split and 2 = max_L are never visited, contradicting the
claimed sweep over every L from 0 through max_L. -/
theorem sweep_stops_before_split :
    max_L tree3 tree3 = 2 ∧ L_split tree3 tree3 = 1 ∧
    (sweep tree3 tree3 (initState tree3 tree3 0)).1.map Step.L = [0, 0] := by
  decide

/-- C2 (code_bug evaluation): with two 3-level trees max_L = 2 ≥ 2, yet no M2L
step occurs anywhere in the sweep trace: the crossover branch sits inside the
loop bounded by L < L_split and its guard L == L_split can never hold there,
contradicting the claim that M2L fires exactly once per sweep. -/
theorem m2l_never_fires :
    2 ≤ max_L tree3 tree3 ∧
    ((sweep tree3 tree3 (initState tree3 tree3 0)).1.filter
        (fun s => s.op == Op.M2L)).length = 0 := by
  decide

/-- C3: for every (L, sbox, tbox) triple dispatched by the branch block,
exactly one source-side operator and exactly one target-side operator is
selected (never zero, never two), and the selected operators are exactly the
ones the claim names: S2M iff L = 0 or sbox is a leaf, else M2M iff
L < L_split, else S2L; L2T iff L = max_L or tbox is a leaf, else L2L iff
L > L_split, else M2T. -/
theorem operator_selection_exclusive (mL Ls L : ℕ) (sLeaf tLeaf : Bool) :
    ((tripleOps mL Ls L sLeaf tLeaf).filter isSourceOp).length = 1 ∧
    ((tripleOps mL Ls L sLeaf tLeaf).filter isTargetOp).length = 1 ∧
    (Op.S2M ∈ tripleOps mL Ls L sLeaf tLeaf ↔ (L = 0 ∨ sLeaf = true)) ∧
    (Op.M2M ∈ tripleOps mL Ls L sLeaf tLeaf ↔
      (¬(L = 0 ∨ sLeaf = true) ∧ L < Ls)) ∧
    (Op.S2L ∈ tripleOps mL Ls L sLeaf tLeaf ↔
      (¬(L = 0 ∨ sLeaf = true) ∧ ¬L < Ls)) ∧
    (Op.L2T ∈ tripleOps mL Ls L sLeaf tLeaf ↔ (L = mL ∨ tLeaf = true)) ∧
    (Op.L2L ∈ tripleOps mL Ls L sLeaf tLeaf ↔
      (¬(L = mL ∨ tLeaf = true) ∧ Ls < L)) ∧
    (Op.M2T ∈ tripleOps mL Ls L sLeaf tLeaf ↔
      (¬(L = mL ∨ tLeaf = true) ∧ ¬Ls < L)) := by
  by_cases h1 : L = 0 ∨ sLeaf = true <;>
    by_cases h4 : L = mL ∨ tLeaf = true <;>
      rcases Nat.lt_trichotomy L Ls with h | h | h <;>
        first
          | (subst h; simp [tripleOps, isSourceOp, isTargetOp, h1, h4, lt_irrefl])
          | simp [tripleOps, isSourceOp, isTargetOp, h1, h4, h,
                  Nat.ne_of_lt h, Nat.lt_asymm h, Ne.symm (Nat.ne_of_lt h)]

/-- C5: whenever max_L < 2 (equivalently L_split = 0), the run aborts with the
configuration error of assert(L_split > 0) before the sweep runs, and the
sweep itself would perform no traversal step at all: the program never
silently proceeds into the level sweep. -/
theorem config_error_aborts_before_sweep (sT tT : BoxTree) (M : ℕ)
    (h : max_L sT tT < 2) :
    butterflyRun sT tT M = Except.error ConfigurationError.lSplitNotPositive ∧
    (sweep sT tT (initState sT tT M)).1 = [] := by
  have hz : L_split sT tT = 0 := by unfold L_split; omega
  constructor
  · unfold butterflyRun
    rw [hz]
    simp
  · unfold sweep
    rw [hz]
    rfl

/-- C5 witness: two 2-level trees give max_L = 1 < 2 and the run aborts. -/
theorem config_error_aborts_before_sweep_witness :
    max_L tree2 tree2 < 2 ∧
    (butterflyRun tree2 tree2 5 =
        Except.error ConfigurationError.lSplitNotPositive ∧
      (sweep tree2 tree2 (initState tree2 tree2 5)).1 = []) :=
  ⟨by decide, config_error_aborts_before_sweep tree2 tree2 5 (by decide)⟩

/-- C6: max_L is the common level count minus one (characterized additively, so
the ℕ subtraction is exact) and L_split is the integer-division half of max_L,
characterized by 2·L_split ≤ max_L < 2·L_split + 2. -/
theorem max_L_and_L_split_formulas (sT tT : BoxTree)
    (hs : 1 ≤ sT.levels) (ht : 1 ≤ tT.levels) :
    max_L sT tT + 1 = min sT.levels tT.levels ∧
    2 * L_split sT tT ≤ max_L sT tT ∧
    max_L sT tT < 2 * L_split sT tT + 2 := by
  unfold L_split max_L
  omega

/-- C6 witness: a 4-level and a 3-level tree give max_L = 2 and L_split = 1. -/
theorem max_L_and_L_split_formulas_witness :
    (1 ≤ tree4.levels ∧ 1 ≤ tree3.levels) ∧
    (max_L tree4 tree3 + 1 = min tree4.levels tree3.levels ∧
      2 * L_split tree4 tree3 ≤ max_L tree4 tree3 ∧
      max_L tree4 tree3 < 2 * L_split tree4 tree3 + 2) :=
  ⟨⟨by decide, by decide⟩,
   max_L_and_L_split_formulas tree4 tree3 (by decide) (by decide)⟩

/-- C10: the level sweep writes nothing: for every pair of trees and every
starting state the sweep returns the state unchanged, so after the traversal
the result vector still holds its M default-initialized zeros and the two
bindings hold exactly what the pre-sweep initialization loop established. -/
theorem sweep_writes_nothing (sT tT : BoxTree) (M : ℕ) (st : SweepState) :
    (sweep sT tT st).2 = st ∧
    (sweep sT tT (initState sT tT M)).2.result = List.replicate M 0 ∧
    (sweep sT tT (initState sT tT M)).2.multipole =
      (initLoop sT tT (max_L sT tT)).1 ∧
    (sweep sT tT (initState sT tT M)).2.localB =
      (initLoop sT tT (max_L sT tT)).2 := by
  have key : ∀ s : SweepState, (sweep sT tT s).2 = s := by
    intro s
    unfold sweep
    apply foldl_preserves_snd
    intro a L
    apply foldl_preserves_snd
    intro a2 sIdx
    apply foldl_preserves_snd
    intro a3 tIdx
    exact tripleEffect_id _ _ _ _ _ _
  exact ⟨key st, by rw [key]; rfl, by rw [key]; rfl, by rw [key]; rfl⟩

theorem initStep_fst (sT tT : BoxTree) (mL : ℕ)
    (p : (ℕ → ℕ → List (List ℂ)) × (ℕ → ℕ → List (List ℂ))) (L lvl i : ℕ) :
    (initStep sT tT mL p L).1 lvl i =
      if lvl = mL - L ∧ i < sT.boxCount (mL - L) then
        resizeList (p.1 lvl i) (tT.boxCount L)
      else p.1 lvl i := rfl

theorem initStep_snd (sT tT : BoxTree) (mL : ℕ)
    (p : (ℕ → ℕ → List (List ℂ)) × (ℕ → ℕ → List (List ℂ))) (L lvl j : ℕ) :
    (initStep sT tT mL p L).2 lvl j =
      if lvl = L ∧ j < tT.boxCount L then
        resizeList (p.2 lvl j) (sT.boxCount (mL - L))
      else p.2 lvl j := rfl

theorem initFold_fst_frame (sT tT : BoxTree) (mL lvl i : ℕ) :
    ∀ (Ls : List ℕ)
      (acc : (ℕ → ℕ → List (List ℂ)) × (ℕ → ℕ → List (List ℂ))),
      (∀ L ∈ Ls, mL - L ≠ lvl) →
      (Ls.foldl (initStep sT tT mL) acc).1 lvl i = acc.1 lvl i
  | [], _, _ => rfl
  | L :: Ls, acc, h => by
    rw [List.foldl_cons,
        initFold_fst_frame sT tT mL lvl i Ls _
          (fun L2 hL2 => h L2 (List.mem_cons_of_mem _ hL2)),
        initStep_fst]
    have hne : lvl ≠ mL - L := fun e => h L (List.mem_cons_self _ _) e.symm
    simp [hne]

theorem initFold_snd_frame (sT tT : BoxTree) (mL lvl j : ℕ) :
    ∀ (Ls : List ℕ)
      (acc : (ℕ → ℕ → List (List ℂ)) × (ℕ → ℕ → List (List ℂ))),
      (∀ L ∈ Ls, L ≠ lvl) →
      (Ls.foldl (initStep sT tT mL) acc).2 lvl j = acc.2 lvl j
  | [], _, _ => rfl
  | L :: Ls, acc, h => by
    rw [List.foldl_cons,
        initFold_snd_frame sT tT mL lvl j Ls _
          (fun L2 hL2 => h L2 (List.mem_cons_of_mem _ hL2)),
        initStep_snd]
    have hne : lvl ≠ L := fun e => h L (List.mem_cons_self _ _) e.symm
    simp [hne]

theorem initLoop_fst_at (sT tT : BoxTree) (mL L0 i : ℕ) (hL : L0 ≤ mL)
    (hi : i < sT.boxCount (mL - L0)) :
    (initLoop sT tT mL).1 (mL - L0) i = List.replicate (tT.boxCount L0) [] := by
  have hsplit : mL + 1 = (L0 + 1) + (mL - L0) := by omega
  have hsuf : ∀ L ∈ (List.range (mL - L0)).map ((L0 + 1) + ·),
      mL - L ≠ mL - L0 := by
    intro L hm
    obtain ⟨k, hk, rfl⟩ := List.mem_map.mp hm
    have hk2 := List.mem_range.mp hk
    omega
  have hpre : ∀ L ∈ List.range L0, mL - L ≠ mL - L0 := by
    intro L hm
    have := List.mem_range.mp hm
    omega
  unfold initLoop
  rw [hsplit, List.range_add, List.foldl_append,
      initFold_fst_frame sT tT mL (mL - L0) i _ _ hsuf,
      List.range_succ L0, List.foldl_append, List.foldl_cons, List.foldl_nil,
      initStep_fst, if_pos ⟨rfl, hi⟩,
      initFold_fst_frame sT tT mL (mL - L0) i _ _ hpre]
  simp [resizeList]

theorem initLoop_snd_at (sT tT : BoxTree) (mL L0 j : ℕ) (hL : L0 ≤ mL)
    (hj : j < tT.boxCount L0) :
    (initLoop sT tT mL).2 L0 j = List.replicate (sT.boxCount (mL - L0)) [] := by
  have hsplit : mL + 1 = (L0 + 1) + (mL - L0) := by omega
  have hsuf : ∀ L ∈ (List.range (mL - L0)).map ((L0 + 1) + ·), L ≠ L0 := by
    intro L hm
    obtain ⟨k, hk, rfl⟩ := List.mem_map.mp hm
    omega
  have hpre : ∀ L ∈ List.range L0, L ≠ L0 := by
    intro L hm
    have := List.mem_range.mp hm
    omega
  unfold initLoop
  rw [hsplit, List.range_add, List.foldl_append,
      initFold_snd_frame sT tT mL L0 j _ _ hsuf,
      List.range_succ L0, List.foldl_append, List.foldl_cons, List.foldl_nil,
      initStep_snd, if_pos ⟨rfl, hj⟩,
      initFold_snd_frame sT tT mL L0 j _ _ hpre]
  simp [resizeList]

/-- C9: before the sweep begins, for every level L from 0 to max_L, the
multipole slot of every source box at level max_L - L has been resized to the
number of target boxes at level L, and the local slot of every target box at
level L has been resized to the number of source boxes at level max_L - L;
together with the sweep writing nothing, every binding slot touched by the
sweep is sized before first use. -/
theorem bindings_sized_before_sweep (sT tT : BoxTree) (M L i j : ℕ)
    (hL : L ≤ max_L sT tT)
    (hi : i < sT.boxCount (max_L sT tT - L))
    (hj : j < tT.boxCount L) :
    ((initState sT tT M).multipole (max_L sT tT - L) i).length =
      tT.boxCount L ∧
    ((initState sT tT M).localB L j).length =
      sT.boxCount (max_L sT tT - L) := by
  constructor
  · show ((initLoop sT tT (max_L sT tT)).1 (max_L sT tT - L) i).length = _
    rw [initLoop_fst_at sT tT (max_L sT tT) L i hL hi]
    simp
  · show ((initLoop sT tT (max_L sT tT)).2 L j).length = _
    rw [initLoop_snd_at sT tT (max_L sT tT) L j hL hj]
    simp

/-- C9 witness: for the 3-level trees at L = 1 both binding slots of the only
box on each side have been sized to the opposite level's box count. -/
theorem bindings_sized_before_sweep_witness :
    (1 ≤ max_L tree3 tree3 ∧ 0 < tree3.boxCount (max_L tree3 tree3 - 1) ∧
      0 < tree3.boxCount 1) ∧
    (((initState tree3 tree3 0).multipole (max_L tree3 tree3 - 1) 0).length =
        tree3.boxCount 1 ∧
      ((initState tree3 tree3 0).localB 1 0).length =
        tree3.boxCount (max_L tree3 tree3 - 1)) :=
  ⟨⟨by decide, by decide, by decide⟩,
   bindings_sized_before_sweep tree3 tree3 0 1 0 0 (by decide) (by decide)
     (by decide)⟩

/-- C4 counterexample: at t = s = (1/2) the kernel value is i (real part 0),
but the spec's formula amplitude·(cos(2π·phase) + i·sin(2π·phase)) has real
part cos(π·π), which is nonzero because π is irrational; the spec's extra 2π
factor double-counts the 2π already inside phase. -/
theorem kernel_spec_formula_fails :
    FourierKernel.value halfPoint halfPoint ≠
      specKernelFactorization halfPoint halfPoint := by
  intro hEq
  have hip : inner_prod halfPoint halfPoint = 1 / 4 := by
    simp [inner_prod, halfPoint, Fin.sum_univ_one]
    norm_num
  have h1 : (FourierKernel.value halfPoint halfPoint).re = 0 := by
    show cos_pi (2 * inner_prod halfPoint halfPoint) = 0
    unfold cos_pi
    rw [hip, show Real.pi * (2 * (1 / 4 : ℝ)) = Real.pi / 2 by ring]
    exact Real.cos_pi_div_two
  have h2 : (specKernelFactorization halfPoint halfPoint).re =
      Real.cos (Real.pi * Real.pi) := by
    unfold specKernelFactorization FourierKernel.ampl FourierKernel.phase
    rw [hip,
        show 2 * Real.pi * (2 * Real.pi * (1 / 4 : ℝ)) = Real.pi * Real.pi
          by ring]
    simp [-Complex.ofReal_cos, -Complex.ofReal_sin]
  have hc : Real.cos (Real.pi * Real.pi) = 0 := by
    rw [← h2, ← hEq, h1]
  rw [Real.cos_eq_zero_iff] at hc
  obtain ⟨k, hk⟩ := hc
  have hpi2 : Real.pi * Real.pi = ((2 * (k : ℝ) + 1) / 2) * Real.pi := by
    rw [hk]; ring
  have hpi : Real.pi = (2 * (k : ℝ) + 1) / 2 :=
    mul_right_cancel₀ Real.pi_ne_zero hpi2
  exact irrational_pi ⟨(2 * (k : ℚ) + 1) / 2, by push_cast; exact hpi.symm⟩

/-- C4 amended: the separately exposed amplitude and phase reproduce the
kernel value through value(t,s) = amplitude(t,s)·(cos(phase(t,s)) +
i·sin(phase(t,s))) — the phase already carries the 2π factor. -/
theorem kernel_factorization (t s : Fin 1 → ℝ) :
    FourierKernel.value t s =
      (FourierKernel.ampl t s : ℂ) *
        (Real.cos (FourierKernel.phase t s) +
         Real.sin (FourierKernel.phase t s) * Complex.I) := by
  unfold FourierKernel.value FourierKernel.ampl FourierKernel.phase
  unfold cos_pi sin_pi
  apply Complex.ext
  · simp [-Complex.ofReal_cos, -Complex.ofReal_sin]
    rw [show Real.pi * (2 * inner_prod t s) = 2 * Real.pi * inner_prod t s
          by ring]
  · simp [-Complex.ofReal_cos, -Complex.ofReal_sin]
    rw [show Real.pi * (2 * inner_prod t s) = 2 * Real.pi * inner_prod t s
          by ring]

/-- C7 (code_bug evaluation): at exact = [0+0i], result = [1+0i] the error
loop divides the nonzero norm 1 by the zero norm of exact[0] with no guard;
in the double model (none = non-finite value) the undefined quotient poisons
the average and the maximum accumulators, and the zero aggregate denominator
poisons the aggregate metric — contradicting the claimed policy that the
degenerate case is flagged/excluded and no infinity or NaN reaches the
aggregate, average, or maximum sums. -/
theorem degenerate_norm_pollutes_metrics :
    errorMetrics [1] [0] = (none, none, none) := by
  simp [errorMetrics, errorStep, oadd, omax, odiv, osqrt, norm_2, norm_2_sq]

theorem odiv_some (a b : ℝ) (hb : b ≠ 0) :
    odiv (some a) (some b) = some (a / b) := by
  simp [odiv, hb]

theorem osqrt_some (a : ℝ) : osqrt (some a) = some (Real.sqrt a) := rfl

theorem errFold_tot_error_sq :
    ∀ (l : List (ℂ × ℂ)) (acc : ErrorAccum),
      (l.foldl errorStep acc).tot_error_sq =
        acc.tot_error_sq + (l.map (fun p => norm_2_sq (p.2 - p.1))).sum
  | [], acc => by simp
  | p :: l, acc => by
    rw [List.foldl_cons, errFold_tot_error_sq l]
    simp [errorStep]
    ring

theorem errFold_tot_norm_sq :
    ∀ (l : List (ℂ × ℂ)) (acc : ErrorAccum),
      (l.foldl errorStep acc).tot_norm_sq =
        acc.tot_norm_sq + (l.map (fun p => norm_2_sq p.2)).sum
  | [], acc => by simp
  | p :: l, acc => by
    rw [List.foldl_cons, errFold_tot_norm_sq l]
    simp [errorStep]
    ring

theorem errFold_tot_ind_rel_err :
    ∀ (l : List (ℂ × ℂ)) (acc : ErrorAccum) (x : ℝ),
      (∀ p ∈ l, norm_2 p.2 ≠ 0) → acc.tot_ind_rel_err = some x →
      (l.foldl errorStep acc).tot_ind_rel_err =
        some (x + (l.map (fun p => norm_2 (p.2 - p.1) / norm_2 p.2)).sum)
  | [], acc, x, _, hacc => by simpa using hacc
  | p :: l, acc, x, h, hacc => by
    have hp : norm_2 p.2 ≠ 0 := h p (List.mem_cons_self _ _)
    rw [List.foldl_cons,
        errFold_tot_ind_rel_err l (errorStep acc p)
          (x + norm_2 (p.2 - p.1) / norm_2 p.2)
          (fun q hq => h q (List.mem_cons_of_mem _ hq))
          (by simp [errorStep, oadd, odiv, hacc, hp])]
    simp [add_assoc]

theorem errFold_max_ind_rel_err :
    ∀ (l : List (ℂ × ℂ)) (acc : ErrorAccum) (x : ℝ),
      (∀ p ∈ l, norm_2 p.2 ≠ 0) → acc.max_ind_rel_err = some x →
      (l.foldl errorStep acc).max_ind_rel_err =
        some ((l.map (fun p => norm_2 (p.2 - p.1) / norm_2 p.2)).foldl max x)
  | [], acc, x, _, hacc => by simpa using hacc
  | p :: l, acc, x, h, hacc => by
    have hp : norm_2 p.2 ≠ 0 := h p (List.mem_cons_self _ _)
    rw [List.foldl_cons,
        errFold_max_ind_rel_err l (errorStep acc p)
          (max x (norm_2 (p.2 - p.1) / norm_2 p.2))
          (fun q hq => h q (List.mem_cons_of_mem _ hq))
          (by simp [errorStep, omax, odiv, hacc, hp])]
    simp

theorem le_foldl_max : ∀ (l : List ℝ) (x : ℝ), x ≤ l.foldl max x
  | [], x => le_refl x
  | a :: l, x => le_trans (le_max_left x a) (le_foldl_max l (max x a))

theorem mem_le_foldl_max :
    ∀ (l : List ℝ) (x r : ℝ), r ∈ l → r ≤ l.foldl max x
  | [], _, _, h => absurd h (List.not_mem_nil _)
  | a :: l, x, r, h => by
    rcases List.mem_cons.mp h with rfl | hm
    · exact le_trans (le_max_right x r) (le_foldl_max l (max x r))
    · exact mem_le_foldl_max l (max x a) r hm

theorem foldl_max_eq_init_or_mem :
    ∀ (l : List ℝ) (x : ℝ), l.foldl max x = x ∨ l.foldl max x ∈ l
  | [], _ => Or.inl rfl
  | a :: l, x => by
    rcases foldl_max_eq_init_or_mem l (max x a) with h | h
    · rcases max_choice x a with hx | hx
      · exact Or.inl (by rw [List.foldl_cons, h, hx])
      · exact Or.inr (by
          rw [List.foldl_cons, h, hx]
          exact List.mem_cons_self _ _)
    · exact Or.inr (List.mem_cons_of_mem _ (by rw [List.foldl_cons]; exact h))

/-- C8: when every exact value has nonzero norm (the degenerate case is
settled separately) and M ≥ 1, the three reported metrics are: the aggregate
relative error sqrt(Σ‖exact_k − result_k‖² / Σ‖exact_k‖²), the average
relative error, the mean over k of ‖exact_k − result_k‖/‖exact_k‖, and the
maximum relative error, a per-target ratio that bounds every other one. -/
theorem error_metrics_match_formulas (result exact : List ℂ)
    (hlen : result.length = exact.length) (hM : 0 < result.length)
    (hnz : ∀ z ∈ exact, norm_2 z ≠ 0) :
    (errorMetrics result exact).1 =
      some (Real.sqrt
        (((result.zip exact).map (fun p => norm_2_sq (p.2 - p.1))).sum /
         ((result.zip exact).map (fun p => norm_2_sq p.2)).sum)) ∧
    (errorMetrics result exact).2.1 =
      some ((((result.zip exact).map
          (fun p => norm_2 (p.2 - p.1) / norm_2 p.2)).sum) /
        (result.length : ℝ)) ∧
    (∃ m, (errorMetrics result exact).2.2 = some m ∧
      m ∈ (result.zip exact).map (fun p => norm_2 (p.2 - p.1) / norm_2 p.2) ∧
      ∀ r ∈ (result.zip exact).map (fun p => norm_2 (p.2 - p.1) / norm_2 p.2),
        r ≤ m) := by
  have hpairs : ∀ p ∈ result.zip exact, norm_2 p.2 ≠ 0 := fun p hp =>
    hnz p.2 (List.of_mem_zip hp).2
  have hzlen : (result.zip exact).length = result.length := by
    rw [List.length_zip, hlen, min_self]
  have hzne : result.zip exact ≠ [] :=
    List.length_pos.mp (by rw [hzlen]; exact hM)
  constructor
  · show osqrt (odiv (some _) (some _)) = _
    have hnum := errFold_tot_error_sq (result.zip exact) ⟨0, 0, some 0, some 0⟩
    have hden := errFold_tot_norm_sq (result.zip exact) ⟨0, 0, some 0, some 0⟩
    have hdenpos :
        0 < ((result.zip exact).map (fun p => norm_2_sq p.2)).sum := by
      apply List.sum_pos
      · intro x hx
        obtain ⟨p, hp, rfl⟩ := List.mem_map.mp hx
        have hz : p.2 ≠ 0 := by
          intro hz0
          apply hpairs p hp
          rw [hz0]
          simp [norm_2]
        exact Complex.normSq_pos.mpr hz
      · intro hmapnil
        exact hzne (List.map_eq_nil_iff.mp hmapnil)
    rw [hnum, hden]
    simp only [zero_add]
    rw [odiv_some _ _ hdenpos.ne', osqrt_some]
  · constructor
    · show odiv _ (some _) = _
      rw [errFold_tot_ind_rel_err (result.zip exact) ⟨0, 0, some 0, some 0⟩ 0
            hpairs rfl]
      have hMne : ((result.length : ℕ) : ℝ) ≠ 0 :=
        Nat.cast_ne_zero.mpr hM.ne'
      rw [odiv_some _ _ hMne, zero_add]
    · have hmax := errFold_max_ind_rel_err (result.zip exact)
        ⟨0, 0, some 0, some 0⟩ 0 hpairs rfl
      set rl := (result.zip exact).map
        (fun p => norm_2 (p.2 - p.1) / norm_2 p.2) with hrl
      have hnonneg : ∀ r ∈ rl, 0 ≤ r := by
        intro r hr
        obtain ⟨p, hp, rfl⟩ := List.mem_map.mp hr
        exact div_nonneg (Complex.abs.nonneg _) (Complex.abs.nonneg _)
      have hrlne : rl ≠ [] := by
        intro hnil
        exact hzne (List.map_eq_nil_iff.mp hnil)
      refine ⟨rl.foldl max 0, hmax, ?memb, fun r hr => mem_le_foldl_max rl 0 r hr⟩
      rcases foldl_max_eq_init_or_mem rl 0 with h0 | hmem
      · obtain ⟨r0, hr0⟩ := List.exists_mem_of_ne_nil rl hrlne
        have hle : r0 ≤ 0 := h0 ▸ mem_le_foldl_max rl 0 r0 hr0
        have : r0 = 0 := le_antisymm hle (hnonneg r0 hr0)
        rw [h0, ← this]
        exact hr0
      · exact hmem

/-- C8 witness: result = [0], exact = [1] gives aggregate 1, average 1 and
maximum 1 via the formulas. -/
theorem error_metrics_match_formulas_witness :
    (([(0 : ℂ)].length = [(1 : ℂ)].length ∧ 0 < [(0 : ℂ)].length) ∧
      ∀ z ∈ [(1 : ℂ)], norm_2 z ≠ 0) ∧
    ((errorMetrics [(0 : ℂ)] [(1 : ℂ)]).1 =
      some (Real.sqrt
        ((([(0 : ℂ)].zip [(1 : ℂ)]).map
            (fun p => norm_2_sq (p.2 - p.1))).sum /
         (([(0 : ℂ)].zip [(1 : ℂ)]).map (fun p => norm_2_sq p.2)).sum)) ∧
    (errorMetrics [(0 : ℂ)] [(1 : ℂ)]).2.1 =
      some (((([(0 : ℂ)].zip [(1 : ℂ)]).map
          (fun p => norm_2 (p.2 - p.1) / norm_2 p.2)).sum) /
        ([(0 : ℂ)].length : ℝ)) ∧
    (∃ m, (errorMetrics [(0 : ℂ)] [(1 : ℂ)]).2.2 = some m ∧
      m ∈ ([(0 : ℂ)].zip [(1 : ℂ)]).map
        (fun p => norm_2 (p.2 - p.1) / norm_2 p.2) ∧
      ∀ r ∈ ([(0 : ℂ)].zip [(1 : ℂ)]).map
          (fun p => norm_2 (p.2 - p.1) / norm_2 p.2),
        r ≤ m)) :=
  ⟨⟨⟨rfl, by decide⟩, by
      intro z hz
      simp at hz
      rw [hz]
      simp [norm_2]⟩,
   error_metrics_match_formulas [(0 : ℂ)] [(1 : ℂ)] rfl (by decide) (by
      intro z hz
      simp at hz
      rw [hz]
      simp [norm_2])⟩
